import Mathlib

/-!
Shallow embedding of `billy-cgofuse` (`lib.go`): a cgofuse
`FileSystemInterface` wrapper around a Billy filesystem.  Go maps become
association lists, `uint64` arithmetic is `Nat` with explicit `% 2^64`,
errors are an inductive type mirroring the classes inspected by
`convertError`, and calls into the underlying Billy filesystem are
oracles passed as arguments (the underlying filesystem is an external
collaborator, so each wrapper operation is parametrised by the result
the underlying call returns).  A `nil`-pointer dereference (Go panic) is
modelled by an `Option` result, `none` meaning the call panics.
-/

namespace BillyCgofuse

/-- Linux errno values as used by cgofuse's `fuse` package. -/
def EPERM : Int := 1

def ENOENT : Int := 2

def EIO : Int := 5

def EEXIST : Int := 17

def EINVAL : Int := 22

def ENOSYS : Int := 38

/-- `fuse.S_IFDIR` (octal 0040000). -/
def S_IFDIR : Nat := 16384

/-- `2^64`, the modulus of Go's `uint64` arithmetic. -/
def U64 : Nat := 2 ^ 64

/-- Go `error` values, by the classification `convertError` inspects:
`exist` satisfies `os.IsExist`, `notExist` satisfies `os.IsNotExist`,
`permission` satisfies `os.IsPermission`, `invalid` is `os.ErrInvalid`
(possibly wrapped), `closed` is `os.ErrClosed` (possibly wrapped),
`eof` is `io.EOF`, and `other` is any error in none of those classes. -/
inductive GoError where
  | exist
  | notExist
  | permission
  | invalid
  | closed
  | eof
  | other (msg : String)
deriving DecidableEq

/-- `convertError` from `lib.go`: ordered classification of an error
value (`none` = Go `nil`) into a negated errno, with `-EIO` as the
catch-all. -/
def convertError : Option GoError → Int
  | none => 0
  | some e =>
    if e = GoError.exist then -EEXIST
    else if e = GoError.notExist then -ENOENT
    else if e = GoError.permission then -EPERM
    else if e = GoError.invalid ∨ e = GoError.closed then -EINVAL
    else - EIO

/-- The part of Go's `os.FileInfo` that `fileInfoToStat` reads:
`Name()`, `Size()`, `ModTime()` (as an abstract instant), `Mode()`
(a `uint32`-valued `os.FileMode`), and `IsDir()`. -/
structure FileInfo where
  name : String
  size : Int
  modTime : Int
  mode : Nat
  isDir : Bool
deriving DecidableEq

/-- The fields of cgofuse's `fuse.Stat_t` relevant here.  Fields the
wrapper never assigns keep their zero default, as in the Go composite
literal `fuse.Stat_t{...}`. -/
structure Stat_t where
  size : Int := 0
  mtim : Int := 0
  mode : Nat := 0
  uid : Nat := 0
  gid : Nat := 0
  nlink : Nat := 0
  atim : Int := 0
  ctim : Int := 0
deriving DecidableEq

/-- `fileInfoToStat` from `lib.go`: build a fresh `Stat_t` with size,
mtime and mode copied from the record, then OR the directory bit into
the mode when the record is a directory. -/
def fileInfoToStat (fi : FileInfo) : Stat_t :=
  let out : Stat_t := { size := fi.size, mtim := fi.modTime, mode := fi.mode }
  if fi.isDir then { out with mode := out.mode ||| S_IFDIR } else out

/-- A `billy.File` as seen by the wrapper: whether it additionally
implements `io.WriterAt`, and the results its methods return (the file
object is the external collaborator, so its behaviour is an oracle).
`readAtResult` returns Go's `(n, err)` pair; the `Except` results fold
the success value and the error branch of the other methods. -/
structure FileObj where
  isWriterAt : Bool
  writeAtResult : List Nat → Int → Except GoError Nat
  seekResult : Int → Except GoError Int
  writeResult : List Nat → Except GoError Nat
  readAtResult : List Nat → Int → Nat × Option GoError
  truncateResult : Int → Option GoError
  closeResult : Option GoError

/-- Lookup in a Go map modelled as an association list (first binding
for the key wins; our operations keep keys unique). -/
def mapLookup (k : Nat) (m : List (Nat × α)) : Option α :=
  (m.find? (fun p => p.1 == k)).map Prod.snd

/-- Go map assignment `m[k] = v`: any old binding for `k` is replaced. -/
def mapInsert (k : Nat) (v : α) (m : List (Nat × α)) : List (Nat × α) :=
  (k, v) :: m.filter (fun p => p.1 != k)

/-- Go `delete(m, k)`. -/
def mapDelete (k : Nat) (m : List (Nat × α)) : List (Nat × α) :=
  m.filter (fun p => p.1 != k)

/-- The key set of a Go map (as the list of keys of the bindings). -/
def mapKeys (m : List (Nat × α)) : List Nat :=
  m.map Prod.fst

/-- The `wrapper` struct's mutable state: the file-descriptor map, the
handle counter `nextFd`, and the write-lock map.  A write lock carries
no data we track beyond its presence (`Unit` stands for the fresh
`sync.Mutex`), because the Go map holding it is what `Release` deletes
from and what a missing entry makes `nil`. -/
structure Wrapper where
  fileDescriptors : List (Nat × FileObj)
  nextFd : Nat
  writeLocks : List (Nat × Unit)

/-- `New` from `lib.go`: empty maps, `nextFd` zero. -/
def New : Wrapper :=
  { fileDescriptors := [], nextFd := 0, writeLocks := [] }

/-- `createFileDescriptor`: under the table lock, increment `nextFd`
(`uint64` wrap-around made explicit), store the file under the new
handle, create a fresh write lock for it, and return the handle. -/
def createFileDescriptor (w : Wrapper) (fh : FileObj) : Nat × Wrapper :=
  let fd := (w.nextFd + 1) % U64
  (fd,
    { fileDescriptors := mapInsert fd fh w.fileDescriptors,
      nextFd := fd,
      writeLocks := mapInsert fd () w.writeLocks })

/-- `getFileDescriptor`: plain lookup in the file-descriptor map. -/
def getFileDescriptor (w : Wrapper) (fd : Nat) : Option FileObj :=
  mapLookup fd w.fileDescriptors

/-- `getFileDescriptorWithLock`: looks up the file, then calls
`w.writeLocks[fd].Lock()` WITHOUT checking that the write lock exists.
When `fd` is not in `writeLocks` the Go map yields a `nil`
`*sync.Mutex` and `Lock()` dereferences it: a runtime panic, modelled
as `none`.  Otherwise the result carries the (possibly absent) file. -/
def getFileDescriptorWithLock (w : Wrapper) (fd : Nat) : Option (Option FileObj) :=
  match mapLookup fd w.writeLocks with
  | none => none
  | some _ => some (mapLookup fd w.fileDescriptors)

/-- `Create`: open the path via the underlying filesystem (flags are
consumed by the oracle `openResult`); on error return the translated
code with handle 0, otherwise register the file and return its handle.
Result: `((code, handle), new state)`. -/
def Create (w : Wrapper) (openResult : Except GoError FileObj) : (Int × Nat) × Wrapper :=
  match openResult with
  | Except.error e => ((convertError (some e), 0), w)
  | Except.ok fh =>
    let r := createFileDescriptor w fh
    ((0, r.1), r.2)

/-- `Open`: identical control flow to `Create` (only the flags passed
to the underlying `OpenFile` differ, which the oracle absorbs). -/
def Open (w : Wrapper) (openResult : Except GoError FileObj) : (Int × Nat) × Wrapper :=
  match openResult with
  | Except.error e => ((convertError (some e), 0), w)
  | Except.ok fh =>
    let r := createFileDescriptor w fh
    ((0, r.1), r.2)

/-- `Truncate`: with a real handle, truncate through the stored file
(requires the handle to be in the table); with the sentinel
`^uint64(0)` handle, open the path for writing (oracle `openResult`),
truncate, and close the transient file (`defer fh.Close()` runs on
every exit path after a successful open).  The `Bool` records whether
that transient `Close` was invoked. -/
def Truncate (w : Wrapper) (size : Int) (fd : Nat)
    (openResult : Except GoError FileObj) : Int × Bool :=
  if fd ≠ U64 - 1 then
    match getFileDescriptor w fd with
    | none => (-EINVAL, false)
    | some fh => (convertError (fh.truncateResult size), false)
  else
    match openResult with
    | Except.error e => (convertError (some e), false)
    | Except.ok fh => (convertError (fh.truncateResult size), true)

/-- `Read`: look the handle up (`-EINVAL` when absent), call `ReadAt`;
if the count is positive or the error is `io.EOF`, return the count,
otherwise the translated error. -/
def Read (w : Wrapper) (buff : List Nat) (ofst : Int) (fd : Nat) : Int :=
  match getFileDescriptor w fd with
  | none => -EINVAL
  | some fh =>
    let r := fh.readAtResult buff ofst
    if 0 < r.1 ∨ r.2 = some GoError.eof then (r.1 : Int)
    else convertError r.2

/-- `Write`: `getFileDescriptorWithLock` first (so a handle absent from
the write-lock map panics, `none`); `-EINVAL` when the file is absent
but a lock existed; then either a direct `WriteAt` (when the file is an
`io.WriterAt`) or the seek-then-write fallback, each returning the byte
count or the translated error. -/
def Write (w : Wrapper) (buff : List Nat) (ofst : Int) (fd : Nat) : Option Int :=
  match getFileDescriptorWithLock w fd with
  | none => none
  | some none => some (-EINVAL)
  | some (some fh) =>
    if fh.isWriterAt then
      match fh.writeAtResult buff ofst with
      | Except.error e => some (convertError (some e))
      | Except.ok n => some (n : Int)
    else
      match fh.seekResult ofst with
      | Except.error e => some (convertError (some e))
      | Except.ok _ =>
        match fh.writeResult buff with
        | Except.error e => some (convertError (some e))
        | Except.ok n => some (n : Int)

/-- `Release`: under the table lock, look the handle up (`-EINVAL` when
absent), delete both its map entries, and only then close the file,
returning the translated close error. -/
def Release (w : Wrapper) (fd : Nat) : Int × Wrapper :=
  match mapLookup fd w.fileDescriptors with
  | none => (-EINVAL, w)
  | some fh =>
    (convertError fh.closeResult,
      { fileDescriptors := mapDelete fd w.fileDescriptors,
        nextFd := w.nextFd,
        writeLocks := mapDelete fd w.writeLocks })

/-- `Opendir`: increment `nextFd` under the table lock and hand the new
value out as an opaque directory handle; no table entry is created. -/
def Opendir (w : Wrapper) : (Int × Nat) × Wrapper :=
  let fd := (w.nextFd + 1) % U64
  ((0, fd), { w with nextFd := fd })

/-- `Readdir`: `dirCap` is `none` when the underlying filesystem is not
a `billy.Dir`, otherwise the result of `ReadDir(path)`.  On a listing
error the translated error is returned; otherwise every entry is passed
to the fill callback (modelled by the returned list of
`(name, converted stat, offset 0)` triples) and the function falls
through to `return -fuse.ENOSYS`. -/
def Readdir (dirCap : Option (Except GoError (List FileInfo))) :
    Int × List (String × Stat_t × Int) :=
  match dirCap with
  | none => (-ENOSYS, [])
  | some (Except.error e) => (convertError (some e), [])
  | some (Except.ok entries) =>
    (-ENOSYS, entries.map (fun fi => (fi.name, fileInfoToStat fi, (0 : Int))))

/-- The nonempty initial segments of a path's segment list: the chain
of ancestors `MkdirAll` must bring into existence, ending with the path
itself. -/
def initialSegs : List String → List (List String)
  | [] => []
  | s :: rest => [s] :: (initialSegs rest).map (fun p => s :: p)

/-- Add a directory to the set of existing directories if absent. -/
def insertDir (dirs : List (List String)) (p : List String) : List (List String) :=
  if p ∈ dirs then dirs else dirs ++ [p]

/-- Modelled from the spec: the underlying abstraction's recursive
directory creation (`billy.Dir.MkdirAll`), whose implementation lives
in the go-billy dependency, outside this repository's sources.  Per the
consumed capability contract it follows `os.MkdirAll` semantics: create
the named directory along with any missing parents and return `nil`;
if the directory already exists it does nothing and returns `nil`.
Directories are paths (segment lists); the state is the list of
existing directories. -/
def mkdirAll (dirs : List (List String)) (path : List String) :
    Option GoError × List (List String) :=
  (none, (initialSegs path).foldl insertDir dirs)

/-- `Mkdir` from `lib.go`: when the underlying filesystem implements
`billy.Dir`, delegate to `MkdirAll` and translate its error; otherwise
`-ENOSYS`.  The mode argument is forwarded to the oracle and does not
influence the model. -/
def Mkdir (hasDirCap : Bool) (dirs : List (List String)) (path : List String) :
    Int × List (List String) :=
  if hasDirCap then
    let r := mkdirAll dirs path
    (convertError r.1, r.2)
  else (-ENOSYS, dirs)

/-- One driver callback, together with the oracle outcome of its
underlying call.  `create`/`openf` carry the underlying `OpenFile`
result, `release` carries the handle, and `other` stands for any
callback that leaves the handle table untouched (Read, Write, Truncate,
Getattr, Readdir, ...). -/
inductive Op where
  | create (res : Except GoError FileObj)
  | openf (res : Except GoError FileObj)
  | opendir
  | release (fd : Nat)
  | other

/-- The effect of one callback on the wrapper state. -/
def step (w : Wrapper) (op : Op) : Wrapper :=
  match op with
  | Op.create res => (Create w res).2
  | Op.openf res => (Open w res).2
  | Op.opendir => (Opendir w).2
  | Op.release fd => (Release w fd).2
  | Op.other => w

/-- Whether a callback allocates a handle (successful `Create`/`Open`,
or `Opendir`). -/
def allocates : Op → Bool
  | Op.create (Except.ok _) => true
  | Op.openf (Except.ok _) => true
  | Op.opendir => true
  | _ => false

/-- The handles a callback hands out, read off the operations'
actual return values. -/
def opHandles (w : Wrapper) : Op → List Nat
  | Op.create (Except.ok fh) => [(Create w (Except.ok fh)).1.2]
  | Op.openf (Except.ok fh) => [(Open w (Except.ok fh)).1.2]
  | Op.opendir => [(Opendir w).1.2]
  | _ => []

/-- Run a trace of callbacks from a state. -/
def runState (w : Wrapper) (t : List Op) : Wrapper :=
  t.foldl step w

/-- All handles issued along a trace, in order. -/
def traceHandles (w : Wrapper) : List Op → List Nat
  | [] => []
  | op :: rest => opHandles w op ++ traceHandles (step w op) rest

/-- The number of handle allocations a trace performs. -/
def numAllocs (t : List Op) : Nat :=
  (t.filter allocates).length

/-- A concrete file object whose every call succeeds; used to
instantiate witnesses. -/
def fobj0 : FileObj :=
  { isWriterAt := true,
    writeAtResult := fun buff _ => Except.ok buff.length,
    seekResult := fun ofst => Except.ok ofst,
    writeResult := fun buff => Except.ok buff.length,
    readAtResult := fun buff _ => (buff.length, none),
    truncateResult := fun _ => none,
    closeResult := none }

/-- A concrete file object whose `ReadAt` reports end-of-stream with
zero bytes read. -/
def fobjEOF : FileObj :=
  { fobj0 with readAtResult := fun _ _ => (0, some GoError.eof) }

/-- The state after one successful `Create` on a fresh wrapper; the
handle issued is 1. -/
def wOpen : Wrapper :=
  (Create New (Except.ok fobj0)).2

/-- `wOpen` after `Release(1)`: the table is empty again. -/
def wRel : Wrapper :=
  (Release wOpen 1).2

/-- A small concrete trace for the handle-uniqueness witness: a
successful create, an opendir, a release and a successful open. -/
def trC3 : List Op :=
  [Op.create (Except.ok fobj0), Op.opendir, Op.release 1,
   Op.openf (Except.ok fobj0)]

/-- The state after one successful `Create` of `fobjEOF` on a fresh
wrapper (handle 1). -/
def wEOF : Wrapper :=
  (Create New (Except.ok fobjEOF)).2

/- ## Helper lemmas about the Go-map model -/

theorem mapLookup_delete_self (k : Nat) (m : List (Nat × α)) :
    mapLookup k (mapDelete k m) = none := by
  have h : (mapDelete k m).find? (fun p => p.1 == k) = none := by
    rw [List.find?_eq_none]
    intro p hp
    have hne := (List.mem_filter.mp hp).2
    simp only [bne_iff_ne, ne_eq] at hne
    simpa using hne
  simp [mapLookup, h]

theorem mapKeys_filter (k : Nat) (m : List (Nat × α)) :
    mapKeys (m.filter (fun p => p.1 != k)) = (mapKeys m).filter (fun x => x != k) := by
  induction m with
  | nil => rfl
  | cons hd tl ih =>
    cases h : (hd.1 != k) with
    | false => simpa [mapKeys, List.filter_cons, h] using ih
    | true => simpa [mapKeys, List.filter_cons, h] using ih

theorem mapKeys_insert (k : Nat) (v : α) (m : List (Nat × α)) :
    mapKeys (mapInsert k v m) = k :: (mapKeys m).filter (fun x => x != k) := by
  have h := mapKeys_filter (α := α) k m
  simp only [mapKeys] at h
  simp only [mapInsert, mapKeys, List.map_cons, h]

theorem mapKeys_delete (k : Nat) (m : List (Nat × α)) :
    mapKeys (mapDelete k m) = (mapKeys m).filter (fun x => x != k) :=
  mapKeys_filter k m

/- ## Helper lemmas about traces of callbacks -/

theorem nextFd_step (w : Wrapper) (op : Op) :
    (step w op).nextFd = if allocates op then (w.nextFd + 1) % U64 else w.nextFd := by
  cases op with
  | create res => cases res <;> rfl
  | openf res => cases res <;> rfl
  | opendir => rfl
  | release fd =>
    show (Release w fd).2.nextFd = w.nextFd
    unfold Release
    cases mapLookup fd w.fileDescriptors <;> rfl
  | other => rfl

theorem opHandles_eq (w : Wrapper) (op : Op) :
    opHandles w op = if allocates op then [(w.nextFd + 1) % U64] else [] := by
  cases op with
  | create res => cases res <;> rfl
  | openf res => cases res <;> rfl
  | opendir => rfl
  | release fd => rfl
  | other => rfl

theorem numAllocs_cons (op : Op) (rest : List Op) :
    numAllocs (op :: rest) = if allocates op then numAllocs rest + 1 else numAllocs rest := by
  cases h : allocates op <;> simp [numAllocs, List.filter_cons, h, Nat.add_comm]

theorem traceHandles_eq (t : List Op) : ∀ w : Wrapper,
    w.nextFd + numAllocs t < U64 →
    traceHandles w t = List.range' (w.nextFd + 1) (numAllocs t) := by
  induction t with
  | nil => intro w _; simp [traceHandles, numAllocs]
  | cons op rest ih =>
    intro w hb
    cases ha : allocates op with
    | false =>
      rw [numAllocs_cons, ha, if_neg Bool.false_ne_true] at hb ⊢
      have hn : (step w op).nextFd = w.nextFd := by
        rw [nextFd_step, ha, if_neg Bool.false_ne_true]
      simp only [traceHandles, opHandles_eq, ha, if_neg Bool.false_ne_true,
        List.nil_append]
      rw [ih (step w op) (by rw [hn]; exact hb), hn]
    | true =>
      rw [numAllocs_cons, ha, if_pos rfl] at hb ⊢
      have hlt : w.nextFd + 1 < U64 := by omega
      have hmod : (w.nextFd + 1) % U64 = w.nextFd + 1 := Nat.mod_eq_of_lt hlt
      have hn : (step w op).nextFd = w.nextFd + 1 := by
        rw [nextFd_step, ha, if_pos rfl, hmod]
      simp only [traceHandles, opHandles_eq, ha, if_pos rfl,
        List.singleton_append]
      rw [ih (step w op) (by rw [hn]; omega), hn, hmod, List.range'_succ]
      simp

theorem keys_agree_step (w : Wrapper) (op : Op)
    (h : mapKeys w.fileDescriptors = mapKeys w.writeLocks) :
    mapKeys (step w op).fileDescriptors = mapKeys (step w op).writeLocks := by
  cases op with
  | create res =>
    cases res with
    | error e => exact h
    | ok fh =>
      show mapKeys (createFileDescriptor w fh).2.fileDescriptors =
        mapKeys (createFileDescriptor w fh).2.writeLocks
      simp [createFileDescriptor, mapKeys_insert, h]
  | openf res =>
    cases res with
    | error e => exact h
    | ok fh =>
      show mapKeys (createFileDescriptor w fh).2.fileDescriptors =
        mapKeys (createFileDescriptor w fh).2.writeLocks
      simp [createFileDescriptor, mapKeys_insert, h]
  | opendir => exact h
  | release fd =>
    show mapKeys (Release w fd).2.fileDescriptors = mapKeys (Release w fd).2.writeLocks
    unfold Release
    cases mapLookup fd w.fileDescriptors with
    | none => exact h
    | some fh => simp [mapKeys_delete, h]
  | other => exact h

theorem keys_agree_runState (t : List Op) : ∀ w : Wrapper,
    mapKeys w.fileDescriptors = mapKeys w.writeLocks →
    mapKeys (runState w t).fileDescriptors = mapKeys (runState w t).writeLocks := by
  induction t with
  | nil => intro w h; exact h
  | cons op rest ih =>
    intro w h
    exact ih (step w op) (keys_agree_step w op h)

/- ## Helper lemmas about the modelled MkdirAll -/

theorem mem_insertDir_self (dirs : List (List String)) (p : List String) :
    p ∈ insertDir dirs p := by
  unfold insertDir
  split
  · assumption
  · simp

theorem mem_insertDir_mono (dirs : List (List String)) (p q : List String)
    (h : p ∈ dirs) : p ∈ insertDir dirs q := by
  unfold insertDir
  split
  · exact h
  · exact List.mem_append_left _ h

theorem mem_foldl_insertDir_mono (l : List (List String)) :
    ∀ dirs p, p ∈ dirs → p ∈ l.foldl insertDir dirs := by
  induction l with
  | nil => intro dirs p h; exact h
  | cons q rest ih =>
    intro dirs p h
    exact ih (insertDir dirs q) p (mem_insertDir_mono dirs p q h)

theorem mem_foldl_insertDir (l : List (List String)) :
    ∀ dirs p, p ∈ l → p ∈ l.foldl insertDir dirs := by
  induction l with
  | nil => intro dirs p h; cases h
  | cons q rest ih =>
    intro dirs p h
    rcases List.mem_cons.mp h with rfl | h
    · exact mem_foldl_insertDir_mono rest (insertDir dirs p) p
        (mem_insertDir_self dirs p)
    · exact ih (insertDir dirs q) p h

/- ## The claims -/

/-- Claim C1 (code bug): the claim says `Write` with a handle that is no
longer in the table returns `-EINVAL`.  The code instead panics:
`getFileDescriptorWithLock` calls `w.writeLocks[fd].Lock()` without a
presence check, and after `Release(h1)` the write-lock entry is gone, so
the map yields a nil `*sync.Mutex` and `Lock()` dereferences it.  At the
concrete failing input: a successful `Create` issues handle 1,
`Release(1)` succeeds, and the subsequent `Write` evaluates to `none`
(panic), not `some (-EINVAL)`. -/
theorem write_after_release_panics :
    (Create New (Except.ok fobj0)).1 = (0, 1) ∧
    (Release wOpen 1).1 = 0 ∧
    Write wRel [5] 0 1 = none ∧
    Write wRel [5] 0 1 ≠ some (-EINVAL) := by
  refine ⟨rfl, rfl, rfl, by decide⟩

/-- Claim C2 counterexample: the claim says the final return code of
`Readdir` is `-ENOSYS` regardless of whether the listing succeeded, but
when the underlying `ReadDir` fails (here: not-found) the code returns
the translated error `-ENOENT`, not `-ENOSYS`. -/
theorem readdir_error_code_cex :
    (Readdir (some (Except.error GoError.notExist))).1 = -ENOENT ∧
    (Readdir (some (Except.error GoError.notExist))).1 ≠ -ENOSYS := by
  refine ⟨rfl, by decide⟩

/-- Claim C2 (amended): when the underlying filesystem supports
directory listing and `ReadDir` returns without error, the final return
code is `-ENOSYS` even though the listing succeeded, and the entries are
delivered only through the fill callback (one call per entry with the
entry's name, converted attributes and offset 0); when `ReadDir` returns
an error, the translated error code is returned and no fill call is
made. -/
theorem readdir_enosys_on_success (entries : List FileInfo) (e : GoError) :
    (Readdir (some (Except.ok entries))).1 = -ENOSYS ∧
    (Readdir (some (Except.ok entries))).2 =
      entries.map (fun fi => (fi.name, fileInfoToStat fi, (0 : Int))) ∧
    (Readdir (some (Except.error e))).1 = convertError (some e) ∧
    (Readdir (some (Except.error e))).2 = [] :=
  ⟨rfl, rfl, rfl, rfl⟩

/-- Claim C3: along any trace of callbacks from a fresh wrapper that
performs fewer than `2^64` handle allocations (`Create`, `Open`, or
`Opendir`), the issued handles are exactly `1, 2, 3, ...` (the counter
is monotonically increasing) and therefore pairwise distinct: no handle,
in particular no handle still resident in the table, is ever reissued. -/
theorem handle_allocation_distinct (t : List Op) (h : numAllocs t < U64) :
    traceHandles New t = List.range' 1 (numAllocs t) ∧
    (traceHandles New t).Nodup := by
  have he : traceHandles New t = List.range' (New.nextFd + 1) (numAllocs t) :=
    traceHandles_eq t New (by simpa [New] using h)
  constructor
  · simpa [New] using he
  · rw [he]
    exact List.nodup_range' _ _ 1 (by decide)

/-- Claim C3 witness: on the concrete trace `trC3` (a successful create,
an opendir, a release and a successful open) the three allocations yield
the distinct handles 1, 2, 3. -/
theorem handle_allocation_distinct_witness :
    traceHandles New trC3 = List.range' 1 (numAllocs trC3) ∧
    (traceHandles New trC3).Nodup :=
  handle_allocation_distinct trC3 (by decide)

/-- Claim C4: after any trace of callbacks from a fresh wrapper, the
file-descriptor map and the write-lock map have exactly the same key
set — every successful `Create`/`Open` inserts into both in the same
critical section and `Release` deletes from both in the same critical
section (also when the underlying `Close` fails, since the deletion
precedes the close and the trace places no restriction on the file's
close result). -/
theorem fd_and_writelock_keys_agree (t : List Op) :
    mapKeys (runState New t).fileDescriptors =
      mapKeys (runState New t).writeLocks :=
  keys_agree_runState t New rfl

/-- Claim C5: error translation is a pure, deterministic, ordered
classification: `nil` maps to 0, already-exists to `-EEXIST`, not-found
to `-ENOENT`, permission-denied to `-EPERM`, invalid-argument and
closed-handle to `-EINVAL`, and every other non-nil error (including
`io.EOF` and arbitrary unclassified errors) to `-EIO`; translating the
same error value twice yields the same code. -/
theorem convertError_classification (s : String) :
    convertError none = 0 ∧
    convertError (some GoError.exist) = -EEXIST ∧
    convertError (some GoError.notExist) = -ENOENT ∧
    convertError (some GoError.permission) = -EPERM ∧
    convertError (some GoError.invalid) = -EINVAL ∧
    convertError (some GoError.closed) = -EINVAL ∧
    convertError (some GoError.eof) = - EIO ∧
    convertError (some (GoError.other s)) = - EIO ∧
    (∀ e : Option GoError, convertError e = convertError e) :=
  ⟨rfl, rfl, rfl, rfl, rfl, rfl, rfl, rfl, fun _ => rfl⟩

/-- Claim C6: attribute conversion copies size and modification time
verbatim, copies the mode bits verbatim, ORs the directory bit into the
mode exactly when the record denotes a directory (whatever the input
permission bits are), and leaves owner, group, link count and the
non-modification timestamps at their zero defaults. -/
theorem fileInfoToStat_fields (fi : FileInfo) :
    (fileInfoToStat fi).size = fi.size ∧
    (fileInfoToStat fi).mtim = fi.modTime ∧
    (fileInfoToStat fi).mode =
      (if fi.isDir then fi.mode ||| S_IFDIR else fi.mode) ∧
    (fileInfoToStat fi).uid = 0 ∧
    (fileInfoToStat fi).gid = 0 ∧
    (fileInfoToStat fi).nlink = 0 ∧
    (fileInfoToStat fi).atim = 0 ∧
    (fileInfoToStat fi).ctim = 0 := by
  cases h : fi.isDir <;> simp [fileInfoToStat, h]

/-- Claim C7: `Truncate` with the sentinel all-bits-set handle performs
a transient open-for-write / truncate / close on the path — independent
of the handle table, so no prior `Open` is needed — closing the
transient file on every exit path after a successful open, and
translating open/truncate failures; with any other handle value it
truncates through the stored file when the handle is present and
returns `-EINVAL` when it is not. -/
theorem truncate_semantics (w : Wrapper) (size : Int) (fd : Nat)
    (fh : FileObj) (e : GoError) (res : Except GoError FileObj) :
    Truncate w size (U64 - 1) (Except.ok fh) =
      (convertError (fh.truncateResult size), true) ∧
    Truncate w size (U64 - 1) (Except.error e) =
      (convertError (some e), false) ∧
    (fd ≠ U64 - 1 → getFileDescriptor w fd = none →
      Truncate w size fd res = (-EINVAL, false)) ∧
    (fd ≠ U64 - 1 → getFileDescriptor w fd = some fh →
      Truncate w size fd res = (convertError (fh.truncateResult size), false)) := by
  refine ⟨by simp [Truncate], by simp [Truncate], ?_, ?_⟩
  · intro hfd hl
    simp [Truncate, hfd, hl]
  · intro hfd hl
    simp [Truncate, hfd, hl]

/-- Claim C7 witness: on the state holding handle 1, the sentinel path
succeeds (and closes the transient file) whether or not a handle is
open, a failing transient open yields `-ENOENT` without a close, handle
2 (absent) yields `-EINVAL`, and handle 1 (present) truncates through
the stored file. -/
theorem truncate_semantics_witness :
    Truncate wOpen 0 (U64 - 1) (Except.ok fobj0) = (0, true) ∧
    Truncate wOpen 0 (U64 - 1) (Except.error GoError.notExist) =
      (-ENOENT, false) ∧
    Truncate wOpen 0 2 (Except.ok fobj0) = (-EINVAL, false) ∧
    Truncate wOpen 0 1 (Except.ok fobj0) = (0, false) :=
  ⟨(truncate_semantics wOpen 0 2 fobj0 GoError.notExist (Except.ok fobj0)).1,
   (truncate_semantics wOpen 0 2 fobj0 GoError.notExist (Except.ok fobj0)).2.1,
   (truncate_semantics wOpen 0 2 fobj0 GoError.notExist
      (Except.ok fobj0)).2.2.1 (by decide) (by rfl),
   (truncate_semantics wOpen 0 1 fobj0 GoError.notExist
      (Except.ok fobj0)).2.2.2 (by decide) (by rfl)⟩

/-- Claim C8: `Read` with a handle in the table returns the byte count
whenever the underlying `ReadAt` read a positive number of bytes or hit
end-of-stream (so EOF with zero bytes read is returned as the count 0,
not as an error) and otherwise returns the translated error; `Read`
with a handle not in the table returns `-EINVAL`. -/
theorem read_semantics (w : Wrapper) (buff : List Nat) (ofst : Int)
    (fd : Nat) (fh : FileObj) :
    (getFileDescriptor w fd = none → Read w buff ofst fd = -EINVAL) ∧
    (getFileDescriptor w fd = some fh →
      (0 < (fh.readAtResult buff ofst).1 ∨
          (fh.readAtResult buff ofst).2 = some GoError.eof →
        Read w buff ofst fd = ((fh.readAtResult buff ofst).1 : Int)) ∧
      (¬(0 < (fh.readAtResult buff ofst).1 ∨
          (fh.readAtResult buff ofst).2 = some GoError.eof) →
        Read w buff ofst fd = convertError (fh.readAtResult buff ofst).2)) := by
  constructor
  · intro h
    simp [Read, h]
  · intro h
    constructor
    · intro hc
      simp [Read, h, hc]
    · intro hc
      simp [Read, h, hc]

/-- Claim C8 witness: on the state holding handle 1 whose file reports
EOF with zero bytes read, `Read` returns the count 0 (not an error),
and `Read` with the absent handle 2 returns `-EINVAL`. -/
theorem read_semantics_witness :
    Read wEOF [5, 5] 0 1 = 0 ∧ Read wEOF [5, 5] 0 2 = -EINVAL :=
  ⟨((read_semantics wEOF [5, 5] 0 1 fobjEOF).2 (by rfl)).1 (Or.inr rfl),
   (read_semantics wEOF [5, 5] 0 2 fobjEOF).1 (by rfl)⟩

/-- Claim C9: for a handle present in the table, `Release` deletes both
its file-descriptor entry and its write lock — for every possible close
result, i.e. even when the close fails — and returns the translated
close error as its result; a subsequent lookup of the handle finds
nothing. -/
theorem release_removes_entry (w : Wrapper) (fd : Nat) (fh : FileObj)
    (h : mapLookup fd w.fileDescriptors = some fh) :
    (Release w fd).1 = convertError fh.closeResult ∧
    mapLookup fd (Release w fd).2.fileDescriptors = none ∧
    mapLookup fd (Release w fd).2.writeLocks = none := by
  simp [Release, h, mapLookup_delete_self]

/-- Claim C9 witness: releasing handle 1 on the state holding it
returns the translated close result (0) and removes both entries. -/
theorem release_removes_entry_witness :
    (Release wOpen 1).1 = convertError fobj0.closeResult ∧
    mapLookup 1 (Release wOpen 1).2.fileDescriptors = none ∧
    mapLookup 1 (Release wOpen 1).2.writeLocks = none :=
  release_removes_entry wOpen 1 fobj0 (by rfl)

/-- Claim C10: when the underlying filesystem has the directory
capability, `Mkdir` delegates to the recursive `MkdirAll` (modelled from
the spec's consumed capability contract): the result is exactly
`MkdirAll`'s translated result, the call succeeds with code 0, every
ancestor of the path (and the path itself) exists afterwards, and a
target directory that already exists yields 0, not `-EEXIST`. -/
theorem mkdir_delegates_mkdirAll (dirs : List (List String))
    (path : List String) :
    Mkdir true dirs path =
      (convertError (mkdirAll dirs path).1, (mkdirAll dirs path).2) ∧
    (Mkdir true dirs path).1 = 0 ∧
    (∀ p, p ∈ initialSegs path → p ∈ (Mkdir true dirs path).2) ∧
    (path ∈ dirs → (Mkdir true dirs path).1 ≠ -EEXIST) := by
  refine ⟨rfl, rfl, ?_, ?_⟩
  · intro p hp
    exact mem_foldl_insertDir (initialSegs path) dirs p hp
  · intro _
    show (0 : Int) ≠ -EEXIST
    decide

/-- Claim C10 witness: creating `a/b` when only `a` exists succeeds
with code 0, leaves both `a` and `a/b` present, and does not report
`-EEXIST` even though `a` already existed. -/
theorem mkdir_delegates_mkdirAll_witness :
    (Mkdir true [["a"]] ["a", "b"]).1 = 0 ∧
    ["a"] ∈ (Mkdir true [["a"]] ["a", "b"]).2 ∧
    ["a", "b"] ∈ (Mkdir true [["a"]] ["a", "b"]).2 ∧
    (Mkdir true [["a"], ["a", "b"]] ["a", "b"]).1 ≠ -EEXIST :=
  ⟨(mkdir_delegates_mkdirAll [["a"]] ["a", "b"]).2.1,
   (mkdir_delegates_mkdirAll [["a"]] ["a", "b"]).2.2.1 ["a"] (by decide),
   (mkdir_delegates_mkdirAll [["a"]] ["a", "b"]).2.2.1 ["a", "b"] (by decide),
   (mkdir_delegates_mkdirAll [["a"], ["a", "b"]] ["a", "b"]).2.2.2 (by decide)⟩

end BillyCgofuse
